import Mathlib

/-!
Verification of the todo-webapp client logic (src/src/App.tsx).

The stores are embedded shallowly: each React state update sequence becomes a
pure function from the previous state (plus the remote response, when a network
call is involved) to the next state.  Remote calls are modelled by an explicit
`Except String _` argument: `Except.error msg` is a thrown/rejected request
(network failure or non-2xx, as surfaced by `apiRequest`), `Except.ok` a
resolved one.  JavaScript nullable fields become `Option`.
-/

namespace TodoWebapp

/-- A raw role object as the backend returns it: `{ id, name, description }`,
where `name` may be null/absent (App.tsx filters such names out). -/
structure RawRole where
  id : String
  name : Option String
  descr : Option String
deriving Repr, DecidableEq

/-- A raw user record as the backend returns it; `roles` may be absent. -/
structure RawUser where
  id : String
  email : String
  firstName : String
  lastName : String
  roles : Option (List RawRole)
deriving Repr, DecidableEq

/-- A normalized user/identity record as the stores keep it:
roles are plain role-name strings (App.tsx lines 95-101, 453-458). -/
structure User where
  id : String
  email : String
  firstName : String
  lastName : String
  roles : List String
deriving Repr, DecidableEq

/-- `role.name` if it is truthy in the JavaScript sense:
`roles.map((role) => role.name).filter(Boolean)` keeps a name only when it is
neither null/undefined nor the empty string. -/
def truthyName (r : RawRole) : Option String :=
  match r.name with
  | none => none
  | some s => if s = "" then none else some s

/-- `userData.roles ? userData.roles.map((role) => role.name).filter(Boolean) : []`
(App.tsx lines 92-94 and the same pattern at 455-457, 511-513, 566-568, 576-579). -/
def projectRoles (roles : Option (List RawRole)) : List String :=
  match roles with
  | none => []
  | some rs => rs.filterMap truthyName

/-- `{ ...u, roles: projected }` applied to a full raw user record: every field
is taken from the response, with the roles normalized to name strings. -/
def normalizeUser (ru : RawUser) : User :=
  { id := ru.id, email := ru.email, firstName := ru.firstName,
    lastName := ru.lastName, roles := projectRoles ru.roles }

/-- `hasRole` (App.tsx lines 167-174): false without an identity; true when the
sentinel "Any" is required; otherwise true iff some required role is held. -/
def hasRole (user : Option User) (requiredRoles : List String) : Bool :=
  match user with
  | none => false
  | some u =>
    if requiredRoles.contains "Any" then true
    else requiredRoles.any fun role => u.roles.contains role

/-- A task as the task store keeps it.  `employeeId`/`reviewerId` are nullable
(addTask posts `null` when unassigned).  Status and priority are the backend's
numeric enums. -/
structure Task where
  id : String
  type : String
  descr : String
  status : Nat
  priority : Nat
  employeeId : Option String
  reviewerId : Option String
  createdOnUtc : String
deriving Repr, DecidableEq

/-- The supervisor-branch predicate of `getFilteredTasks` (App.tsx 387-393):
the task is reviewed by the caller, or its assignee is a directory entry
holding the "empleado" role. -/
def supervisorVisible (u : User) (allUsers : List User) (task : Task) : Bool :=
  task.reviewerId == some u.id ||
    allUsers.any fun du => some du.id == task.employeeId && du.roles.contains "empleado"

/-- `getFilteredTasks` (App.tsx lines 381-398). -/
def getFilteredTasks (user : Option User) (tasks : List Task) (allUsers : List User) :
    List Task :=
  match user with
  | none => []
  | some u =>
    if hasRole (some u) ["administrador"] then tasks
    else if hasRole (some u) ["supervisor"] then
      tasks.filter (supervisorVisible u allUsers)
    else if hasRole (some u) ["empleado"] then
      tasks.filter fun task => task.employeeId == some u.id
    else []

/-! ### Helper lemmas about `hasRole` and `getFilteredTasks` -/

lemma hasRole_singleton (u : User) (r : String) (hr : r ≠ "Any") :
    hasRole (some u) [r] = true ↔ r ∈ u.roles := by
  simp [hasRole, Ne.symm hr]

lemma hasRole_singleton_false (u : User) (r : String) (hr : r ≠ "Any")
    (h : r ∉ u.roles) : hasRole (some u) [r] = false := by
  rw [Bool.eq_false_iff]
  intro hc
  exact h ((hasRole_singleton u r hr).mp hc)

lemma getFilteredTasks_admin (u : User) (tasks : List Task) (allUsers : List User)
    (h : "administrador" ∈ u.roles) :
    getFilteredTasks (some u) tasks allUsers = tasks := by
  have h1 : hasRole (some u) ["administrador"] = true :=
    (hasRole_singleton u "administrador" (by decide)).mpr h
  simp [getFilteredTasks, h1]

lemma getFilteredTasks_sup (u : User) (tasks : List Task) (allUsers : List User)
    (hadm : "administrador" ∉ u.roles) (hsup : "supervisor" ∈ u.roles) :
    getFilteredTasks (some u) tasks allUsers =
      tasks.filter (supervisorVisible u allUsers) := by
  have h1 := hasRole_singleton_false u "administrador" (by decide) hadm
  have h2 : hasRole (some u) ["supervisor"] = true :=
    (hasRole_singleton u "supervisor" (by decide)).mpr hsup
  simp [getFilteredTasks, h1, h2]

lemma supervisorVisible_iff (u : User) (allUsers : List User) (t : Task) :
    supervisorVisible u allUsers t = true ↔
      (t.reviewerId = some u.id ∨
        ∃ du, du ∈ allUsers ∧ some du.id = t.employeeId ∧ "empleado" ∈ du.roles) := by
  simp [supervisorVisible, List.any_eq_true]

lemma getFilteredTasks_emp (u : User) (tasks : List Task) (allUsers : List User)
    (hadm : "administrador" ∉ u.roles) (hsup : "supervisor" ∉ u.roles)
    (hemp : "empleado" ∈ u.roles) :
    getFilteredTasks (some u) tasks allUsers =
      tasks.filter fun task => task.employeeId == some u.id := by
  have h1 := hasRole_singleton_false u "administrador" (by decide) hadm
  have h2 := hasRole_singleton_false u "supervisor" (by decide) hsup
  have h3 : hasRole (some u) ["empleado"] = true :=
    (hasRole_singleton u "empleado" (by decide)).mpr hemp
  simp [getFilteredTasks, h1, h2, h3]

lemma getFilteredTasks_norole (u : User) (tasks : List Task) (allUsers : List User)
    (hadm : "administrador" ∉ u.roles) (hsup : "supervisor" ∉ u.roles)
    (hemp : "empleado" ∉ u.roles) :
    getFilteredTasks (some u) tasks allUsers = [] := by
  have h1 := hasRole_singleton_false u "administrador" (by decide) hadm
  have h2 := hasRole_singleton_false u "supervisor" (by decide) hsup
  have h3 := hasRole_singleton_false u "empleado" (by decide) hemp
  simp [getFilteredTasks, h1, h2, h3]

/-! ### Fixtures for witnesses -/

def uAdmin : User :=
  { id := "adm1", email := "a@x", firstName := "A", lastName := "A",
    roles := ["administrador"] }

def uEmp : User :=
  { id := "emp1", email := "e@x", firstName := "E", lastName := "E",
    roles := ["empleado"] }

def uEmpOther : User :=
  { id := "emp2", email := "o@x", firstName := "O", lastName := "O",
    roles := ["empleado"] }

def uSupEmp : User :=
  { id := "sup1", email := "s@x", firstName := "S", lastName := "S",
    roles := ["supervisor", "empleado"] }

def tOwn : Task :=
  { id := "t1", type := "own", descr := "", status := 0, priority := 0,
    employeeId := some "emp1", reviewerId := none, createdOnUtc := "2024-01-01" }

def tForeign : Task :=
  { id := "t2", type := "foreign", descr := "", status := 0, priority := 0,
    employeeId := some "emp2", reviewerId := none, createdOnUtc := "2024-01-02" }

/-! ### Claim theorems -/

/-- C2: `hasRole(Q)` is false with no identity; with an identity of role set R
it is true iff "Any" ∈ Q or R ∩ Q is non-empty. -/
theorem hasRole_spec :
    (∀ Q : List String, hasRole none Q = false) ∧
    ∀ (u : User) (Q : List String),
      hasRole (some u) Q = true ↔ "Any" ∈ Q ∨ ∃ r, r ∈ u.roles ∧ r ∈ Q := by
  refine ⟨fun Q => rfl, fun u Q => ?_⟩
  by_cases hAny : "Any" ∈ Q
  · simp [hasRole, hAny]
  · simp [hasRole, hAny, List.any_eq_true]
    constructor
    · rintro ⟨r, hrQ, hrU⟩; exact ⟨r, hrU, hrQ⟩
    · rintro ⟨r, hrU, hrQ⟩; exact ⟨r, hrQ, hrU⟩

/-- C2 witness: an identity holding "empleado" passes a role check requiring
"empleado" or "supervisor". -/
theorem hasRole_spec_witness :
    hasRole (some uEmp) ["empleado", "supervisor"] = true :=
  (hasRole_spec.2 uEmp ["empleado", "supervisor"]).mpr
    (Or.inr ⟨"empleado", by decide, by decide⟩)

/-- C1: the visibility filter returns all tasks for an administrator; for a
supervisor (not administrator) exactly the tasks reviewed by the caller or
assigned to a directory entry holding "empleado"; for an employee (no higher
role) exactly the tasks assigned to the caller; and the empty list with no
recognized role or no identity.  Administrator visibility equals the raw list. -/
theorem getFilteredTasks_spec :
    (∀ (u : User) (tasks : List Task) (allUsers : List User),
      ("administrador" ∈ u.roles →
        getFilteredTasks (some u) tasks allUsers = tasks) ∧
      ("administrador" ∉ u.roles → "supervisor" ∈ u.roles →
        ∀ t : Task, t ∈ getFilteredTasks (some u) tasks allUsers ↔
          t ∈ tasks ∧ (t.reviewerId = some u.id ∨
            ∃ du, du ∈ allUsers ∧ some du.id = t.employeeId ∧ "empleado" ∈ du.roles)) ∧
      ("administrador" ∉ u.roles → "supervisor" ∉ u.roles → "empleado" ∈ u.roles →
        ∀ t : Task, t ∈ getFilteredTasks (some u) tasks allUsers ↔
          t ∈ tasks ∧ t.employeeId = some u.id) ∧
      ("administrador" ∉ u.roles → "supervisor" ∉ u.roles → "empleado" ∉ u.roles →
        getFilteredTasks (some u) tasks allUsers = [])) ∧
    ∀ (tasks : List Task) (allUsers : List User),
      getFilteredTasks none tasks allUsers = [] := by
  refine ⟨fun u tasks allUsers => ⟨?_, ?_, ?_, ?_⟩, fun tasks allUsers => rfl⟩
  · exact getFilteredTasks_admin u tasks allUsers
  · intro hadm hsup t
    rw [getFilteredTasks_sup u tasks allUsers hadm hsup, List.mem_filter,
      supervisorVisible_iff]
  · intro hadm hsup hemp t
    rw [getFilteredTasks_emp u tasks allUsers hadm hsup hemp, List.mem_filter]
    simp
  · exact getFilteredTasks_norole u tasks allUsers

/-- C1 witness: an administrator sees the full raw list, including a task
assigned to somebody else. -/
theorem getFilteredTasks_spec_witness :
    getFilteredTasks (some uAdmin) [tOwn, tForeign] [] = [tOwn, tForeign] :=
  (getFilteredTasks_spec.1 uAdmin [tOwn, tForeign] []).1 (by decide)

/-- C6: for an identity holding "empleado" and neither "administrador" nor
"supervisor", no task whose employeeId differs from the caller's id is in the
filtered view. -/
theorem empleado_sees_only_own_tasks (u : User) (tasks : List Task)
    (allUsers : List User) (t : Task)
    (hemp : "empleado" ∈ u.roles) (hadm : "administrador" ∉ u.roles)
    (hsup : "supervisor" ∉ u.roles)
    (hmem : t ∈ getFilteredTasks (some u) tasks allUsers) :
    t.employeeId = some u.id := by
  rw [getFilteredTasks_emp u tasks allUsers hadm hsup hemp, List.mem_filter] at hmem
  simpa using hmem.2

/-- C6 witness: with one own task visible, its employeeId is the caller's id. -/
theorem empleado_sees_only_own_tasks_witness : tOwn.employeeId = some uEmp.id :=
  empleado_sees_only_own_tasks uEmp [tOwn, tForeign] [uEmpOther] tOwn
    (by decide) (by decide) (by decide) (by decide)

/-- C9: role branches are tried in a fixed order; an identity holding both
"supervisor" and "empleado" (but not "administrador") gets exactly the
supervisor projection, so the "empleado" rule is never reached. -/
theorem supervisor_branch_precedence (u : User) (tasks : List Task)
    (allUsers : List User)
    (hsup : "supervisor" ∈ u.roles) (_hemp : "empleado" ∈ u.roles)
    (hadm : "administrador" ∉ u.roles) :
    getFilteredTasks (some u) tasks allUsers =
      tasks.filter (supervisorVisible u allUsers) :=
  getFilteredTasks_sup u tasks allUsers hadm hsup

/-- C9 witness: a supervisor+empleado identity sees a task assigned to a
different employee (which the empleado rule alone would hide). -/
theorem supervisor_branch_precedence_witness :
    getFilteredTasks (some uSupEmp) [tForeign] [uEmpOther] = [tForeign] :=
  (supervisor_branch_precedence uSupEmp [tForeign] [uEmpOther]
    (by decide) (by decide) (by decide)).trans (by decide)

/-! ### Session store (AuthProvider, App.tsx lines 85-191)

State: the `user` and `token` React states plus the two localStorage keys
("jwtToken", "currentUser").  Each provider action becomes a state function;
`Reachable` closes them over any interleaving. -/

structure AuthState where
  user : Option User
  token : Option String
  storedToken : Option String
  storedUser : Option User
deriving Repr, DecidableEq

/-- The restore effect (App.tsx lines 108-116): on mount, with fresh null
`user`/`token` state, both are set iff both storage keys are present. -/
def restoreState (storedToken : Option String) (storedUser : Option User) : AuthState :=
  match storedToken, storedUser with
  | some t, some u =>
    { user := some u, token := some t, storedToken := some t, storedUser := some u }
  | st, su => { user := none, token := none, storedToken := st, storedUser := su }

/-- `setUserAndToken` (App.tsx lines 91-106): normalizes the raw user, sets both
states and writes both storage keys.  `login` reaches it only when the response
carries both a user and a (truthy) token. -/
def setUserAndToken (_s : AuthState) (userData : RawUser) (jwtToken : String) : AuthState :=
  let newUser := normalizeUser userData
  { user := some newUser, token := some jwtToken,
    storedToken := some jwtToken, storedUser := some newUser }

/-- `logout` (App.tsx lines 160-165): clears both states and both storage keys. -/
def logoutState (_s : AuthState) : AuthState :=
  { user := none, token := none, storedToken := none, storedUser := none }

/-- The `setUser` call in `assignRolesToUser` (App.tsx lines 574-581): replaces
the session identity's roles with the projected response roles; guarded there
by `user && user.id === userId`, so it never creates an identity. -/
def updateOwnRoles (s : AuthState) (raw : Option (List RawRole)) : AuthState :=
  { s with user := s.user.map fun u => { u with roles := projectRoles raw } }

/-- The session-store states reachable from initialization/restore through
logins (successful ones call `setUserAndToken`; failed ones only throw, leaving
state alone), logout, and own-role reassignment. -/
inductive Reachable : AuthState → Prop
  | restore (st : Option String) (su : Option User) : Reachable (restoreState st su)
  | loginSuccess {s : AuthState} (userData : RawUser) (jwt : String) :
      Reachable s → Reachable (setUserAndToken s userData jwt)
  | loginFailure {s : AuthState} : Reachable s → Reachable s
  | logout {s : AuthState} : Reachable s → Reachable (logoutState s)
  | roleUpdate {s : AuthState} (raw : Option (List RawRole)) :
      Reachable s → Reachable (updateOwnRoles s raw)

/-! ### User-management store (UserManagementProvider, App.tsx lines 427-612)

Each operation takes the session (`token`, `sessionUser`), the store state
(`users`, `errorUsers`) and the remote outcome, and returns the new state
together with whether a request was issued and the operation's (truthy) return
value. -/

/-- The `{isSuccess, value, errors}` envelope some endpoints return;
`errorMessage` stands for `response.errors?.[0]?.message`. -/
structure ApiResponse (α : Type) where
  isSuccess : Bool
  value : Option α
  errorMessage : Option String
deriving Repr, DecidableEq

structure UMState where
  users : List User
  errorUsers : Option String
deriving Repr, DecidableEq

/-- `fetchUsers` (App.tsx lines 437-471).  Returns the new state and whether a
request was issued: the admin guard resets `users` and returns without touching
`errorUsers`; otherwise `errorUsers` is cleared, and a thrown request or an
unsuccessful envelope records the message and clears `users`. -/
def fetchUsers (token : Option String) (sessionUser : Option User) (st : UMState)
    (resp : Except String (ApiResponse (List RawUser))) : UMState × Bool :=
  if token.isNone || !hasRole sessionUser ["administrador"] then
    ({ st with users := [] }, false)
  else
    match resp with
    | .error msg => ({ users := [], errorUsers := some msg }, true)
    | .ok response =>
      match response.value, response.isSuccess with
      | some raws, true => ({ users := raws.map normalizeUser, errorUsers := none }, true)
      | _, _ =>
        ({ users := [],
           errorUsers := some (response.errorMessage.getD "Fallo al obtener usuarios.") },
         true)

/-- `createUser` (App.tsx lines 477-494).  The guard returns false with no
request; a successful POST returns the (truthy) created user and triggers a
users refetch; a failure records the error and rethrows (ok = false here). -/
def createUser (token : Option String) (sessionUser : Option User) (st : UMState)
    (resp : Except String RawUser) : UMState × Bool × Bool :=
  if token.isNone || !hasRole sessionUser ["administrador"] then (st, false, false)
  else
    match resp with
    | .error msg => ({ st with errorUsers := some msg }, true, false)
    | .ok _ => (st, true, true)

/-- `updateUser` (App.tsx lines 496-524): on success the matching entry becomes
`{ ...u, ...updatedUser, roles: normalized }`, i.e. the full response record
with projected roles. -/
def updateUser (token : Option String) (sessionUser : Option User) (st : UMState)
    (id : String) (resp : Except String RawUser) : UMState × Bool × Bool :=
  if token.isNone || !hasRole sessionUser ["administrador"] then (st, false, false)
  else
    match resp with
    | .error msg => ({ st with errorUsers := some msg }, true, false)
    | .ok updatedUser =>
      ({ st with users := st.users.map fun u =>
          if u.id == id then normalizeUser updatedUser else u },
       true, true)

/-- `deleteUser` (App.tsx lines 526-537). -/
def deleteUser (token : Option String) (sessionUser : Option User) (st : UMState)
    (id : String) (resp : Except String Unit) : UMState × Bool × Bool :=
  if token.isNone || !hasRole sessionUser ["administrador"] then (st, false, false)
  else
    match resp with
    | .error msg => ({ st with errorUsers := some msg }, true, false)
    | .ok _ => ({ st with users := st.users.filter fun u => u.id != id }, true, true)

/-- The hardcoded role-name → role-uuid table of `assignRolesToUser`
(App.tsx lines 543-547). -/
def mockRoleIds (name : String) : Option String :=
  if name = "administrador" then some "74eddc48-9a0d-418f-b074-c3867db03b31"
  else if name = "supervisor" then some "fab11349-cc21-4e73-ad24-27e8e78a4650"
  else if name = "empleado" then some "219cb681-2ec3-4a9a-8c69-4d94b40a28fe"
  else none

/-- `roleName.toLowerCase()`: character-wise lowercasing (the role names in
play are ASCII). -/
def jsToLower (s : String) : String := String.mk (s.data.map Char.toLower)

/-- `roles.map((roleName) => mockRoleIds[roleName.toLowerCase()]).filter(Boolean)`
(App.tsx lines 548-550): unknown names map to undefined and are dropped. -/
def roleUuidsFor (roles : List String) : List String :=
  roles.filterMap fun roleName => mockRoleIds (jsToLower roleName)

structure AssignRolesResult where
  sessionUser : Option User
  state : UMState
  request : Option (String × List String)
  ok : Bool
deriving Repr, DecidableEq

/-- `assignRolesToUser` (App.tsx lines 539-593).  `request` is the POSTed
`{userId, roles}` body (none when the guard suppresses the call).  On a
successful envelope the matching directory entry gets the projected response
roles, and the session identity does too when it is the targeted account. -/
def assignRolesToUser (token : Option String) (sessionUser : Option User)
    (st : UMState) (userId : String) (roles : List String)
    (resp : Except String (ApiResponse RawUser)) : AssignRolesResult :=
  if token.isNone || !hasRole sessionUser ["administrador"] then
    { sessionUser := sessionUser, state := st, request := none, ok := false }
  else
    let req := (userId, roleUuidsFor roles)
    match resp with
    | .error msg =>
      { sessionUser := sessionUser, state := { st with errorUsers := some msg },
        request := some req, ok := false }
    | .ok response =>
      match response.value, response.isSuccess with
      | some updatedUser, true =>
        { sessionUser :=
            match sessionUser with
            | some cu =>
              if cu.id == userId then
                some { cu with roles := projectRoles updatedUser.roles }
              else some cu
            | none => none,
          state :=
            { st with users := st.users.map fun u =>
                if u.id == userId then { u with roles := projectRoles updatedUser.roles }
                else u },
          request := some req, ok := true }
      | _, _ =>
        let msg := response.errorMessage.getD "Fallo al asignar roles."
        { sessionUser := sessionUser,
          state := { st with errorUsers := some msg },
          request := some req, ok := false }

/-! ### Task store mutations (TaskProvider, App.tsx lines 194-424) -/

structure TaskOpResult where
  tasks : List Task
  errorTasks : Option String
  ok : Bool
  refetch : Bool
deriving Repr, DecidableEq

/-- `updateTask` (App.tsx lines 273-294): on success each matching task becomes
`{ ...task, ...updatedTask }` — the full response record, the server returning
the whole updated task. -/
def updateTask (token : Option String) (tasks : List Task) (errorTasks : Option String)
    (id : String) (resp : Except String Task) : TaskOpResult :=
  match token with
  | none => { tasks := tasks, errorTasks := errorTasks, ok := false, refetch := false }
  | some _ =>
    match resp with
    | .error msg => { tasks := tasks, errorTasks := some msg, ok := false, refetch := false }
    | .ok updatedTask =>
      { tasks := tasks.map fun task => if task.id == id then updatedTask else task,
        errorTasks := errorTasks, ok := true, refetch := false }

/-- `updateTaskStatus` (App.tsx lines 310-330): reconciles only `status`. -/
def updateTaskStatus (token : Option String) (tasks : List Task)
    (errorTasks : Option String) (id : String) (resp : Except String Task) :
    TaskOpResult :=
  match token with
  | none => { tasks := tasks, errorTasks := errorTasks, ok := false, refetch := false }
  | some _ =>
    match resp with
    | .error msg => { tasks := tasks, errorTasks := some msg, ok := false, refetch := false }
    | .ok updatedTask =>
      { tasks := tasks.map fun task =>
          if task.id == id then { task with status := updatedTask.status } else task,
        errorTasks := errorTasks, ok := true, refetch := false }

/-- `assignTaskToEmployee` (App.tsx lines 332-354): reconciles only `employeeId`. -/
def assignTaskToEmployee (token : Option String) (tasks : List Task)
    (errorTasks : Option String) (taskId : String) (resp : Except String Task) :
    TaskOpResult :=
  match token with
  | none => { tasks := tasks, errorTasks := errorTasks, ok := false, refetch := false }
  | some _ =>
    match resp with
    | .error msg => { tasks := tasks, errorTasks := some msg, ok := false, refetch := false }
    | .ok updatedTask =>
      { tasks := tasks.map fun task =>
          if task.id == taskId then { task with employeeId := updatedTask.employeeId }
          else task,
        errorTasks := errorTasks, ok := true, refetch := false }

/-- `assignTaskToSupervisor` (App.tsx lines 356-378): reconciles only `reviewerId`. -/
def assignTaskToSupervisor (token : Option String) (tasks : List Task)
    (errorTasks : Option String) (taskId : String) (resp : Except String Task) :
    TaskOpResult :=
  match token with
  | none => { tasks := tasks, errorTasks := errorTasks, ok := false, refetch := false }
  | some _ =>
    match resp with
    | .error msg => { tasks := tasks, errorTasks := some msg, ok := false, refetch := false }
    | .ok updatedTask =>
      { tasks := tasks.map fun task =>
          if task.id == taskId then { task with reviewerId := updatedTask.reviewerId }
          else task,
        errorTasks := errorTasks, ok := true, refetch := false }

/-- `deleteTask` (App.tsx lines 296-308): a successful DELETE leaves the local
list alone and triggers `fetchTasks()` (refetch = true). -/
def deleteTask (token : Option String) (tasks : List Task) (errorTasks : Option String)
    (_id : String) (resp : Except String Unit) : TaskOpResult :=
  match token with
  | none => { tasks := tasks, errorTasks := errorTasks, ok := false, refetch := false }
  | some _ =>
    match resp with
    | .error msg => { tasks := tasks, errorTasks := some msg, ok := false, refetch := false }
    | .ok _ => { tasks := tasks, errorTasks := errorTasks, ok := true, refetch := true }

/-! ### More fixtures -/

def rawSup : RawRole := { id := "r-sup", name := some "supervisor", descr := none }

def rawNameless : RawRole := { id := "r-nil", name := none, descr := none }

def rawSelf : RawUser :=
  { id := "adm1", email := "a@x", firstName := "A", lastName := "A",
    roles := some [rawNameless, rawSup] }

/-! ### Remaining claim theorems -/

lemma isSome_map {α β : Type} (o : Option α) (f : α → β) :
    (o.map f).isSome = o.isSome := by
  cases o <;> rfl

/-- C3: in every reachable session-store state, the identity and the token are
both present or both absent. -/
theorem session_identity_token_sync (s : AuthState) (h : Reachable s) :
    s.user.isSome = s.token.isSome := by
  induction h with
  | restore st su => cases st <;> cases su <;> rfl
  | loginSuccess userData jwt _ _ => rfl
  | loginFailure _ ih => exact ih
  | logout _ _ => rfl
  | roleUpdate raw _ ih => simpa [updateOwnRoles, isSome_map] using ih

/-- C3 witness: the state restored from empty durable storage satisfies the
invariant (both absent). -/
theorem session_identity_token_sync_witness :
    (restoreState none none).user.isSome = (restoreState none none).token.isSome :=
  session_identity_token_sync (restoreState none none) (Reachable.restore none none)

/-- C5: without a token or without the "administrador" role, `fetchUsers`
resets the entries and records no error and no request, and each mutator
issues no request, leaves the state unchanged and returns false. -/
theorem directory_admin_guard (token : Option String) (su : Option User)
    (st : UMState) (id userId : String) (roles : List String)
    (respL : Except String (ApiResponse (List RawUser)))
    (respC respU : Except String RawUser) (respD : Except String Unit)
    (respA : Except String (ApiResponse RawUser))
    (hguard : token = none ∨ hasRole su ["administrador"] = false) :
    fetchUsers token su st respL = ({ st with users := [] }, false) ∧
    createUser token su st respC = (st, false, false) ∧
    updateUser token su st id respU = (st, false, false) ∧
    deleteUser token su st id respD = (st, false, false) ∧
    assignRolesToUser token su st userId roles respA =
      { sessionUser := su, state := st, request := none, ok := false } := by
  have hg : (token.isNone || !hasRole su ["administrador"]) = true := by
    rcases hguard with h | h
    · simp [h]
    · simp [h]
  refine ⟨?_, ?_, ?_, ?_, ?_⟩ <;>
    simp [fetchUsers, createUser, updateUser, deleteUser, assignRolesToUser, hg]

/-- C5 witness: with no token, `fetchUsers` empties the entries, records no
error and issues no request, even though the response argument would be a
network failure. -/
theorem directory_admin_guard_witness :
    fetchUsers none (some uAdmin) { users := [uEmp], errorUsers := none }
        (.error "net") = ({ users := [], errorUsers := none }, false) :=
  (directory_admin_guard none (some uAdmin) { users := [uEmp], errorUsers := none }
    "u1" "u1" ["supervisor"] (.error "net") (.error "net") (.error "net")
    (.error "net") (.error "net") (Or.inl rfl)).1

/-- C4: a successful `assignRolesToUser` targeting the caller's own account
replaces the session identity's roles with the projected response roles (and
updates the matching directory entry); targeting any other account leaves the
session identity unchanged. -/
theorem assignRoles_session_update (token : String) (su : User) (st : UMState)
    (userId : String) (roles : List String) (response : ApiResponse RawUser)
    (raw : RawUser)
    (hadm : hasRole (some su) ["administrador"] = true)
    (hsucc : response.isSuccess = true) (hval : response.value = some raw) :
    ((su.id = userId →
      (assignRolesToUser (some token) (some su) st userId roles (.ok response)).sessionUser =
        some { su with roles := projectRoles raw.roles }) ∧
     (su.id ≠ userId →
      (assignRolesToUser (some token) (some su) st userId roles (.ok response)).sessionUser =
        some su) ∧
     (assignRolesToUser (some token) (some su) st userId roles (.ok response)).state.users =
       (st.users.map fun u =>
         if u.id = userId then { u with roles := projectRoles raw.roles } else u) ∧
     (assignRolesToUser (some token) (some su) st userId roles (.ok response)).ok = true) := by
  refine ⟨?_, ?_, ?_, ?_⟩ <;> simp [assignRolesToUser, hadm, hval, hsucc]
  · intro h; simp [h]
  · intro h; simp [h]

/-- C4 witness: an administrator reassigning their own roles sees their session
role set replaced by the projected response roles (here ["supervisor"], the
null-named role dropped). -/
theorem assignRoles_session_update_witness :
    (assignRolesToUser (some "tok") (some uAdmin) { users := [uAdmin], errorUsers := none }
        "adm1" ["supervisor"]
        (.ok { isSuccess := true, value := some rawSelf, errorMessage := none })).sessionUser =
      some { uAdmin with roles := ["supervisor"] } :=
  ((assignRoles_session_update "tok" uAdmin { users := [uAdmin], errorUsers := none }
    "adm1" ["supervisor"] { isSuccess := true, value := some rawSelf, errorMessage := none }
    rawSelf (by decide) rfl rfl).1 rfl).trans (by decide)

/-- C8: the role-reassignment request carries exactly the identifiers the fixed
table yields for the lowercased names; a name absent from the table is dropped
from the request and changes nothing about the call's outcome. -/
theorem assignRoles_request_spec (token : String) (su : User) (st : UMState)
    (userId : String) (roles : List String)
    (resp : Except String (ApiResponse RawUser))
    (hadm : hasRole (some su) ["administrador"] = true) :
    (assignRolesToUser (some token) (some su) st userId roles resp).request =
      some (userId, roles.filterMap fun n => mockRoleIds (jsToLower n)) ∧
    (∀ (pre post : List String) (bad : String), mockRoleIds (jsToLower bad) = none →
      roleUuidsFor (pre ++ bad :: post) = roleUuidsFor (pre ++ post)) ∧
    ∀ (pre post : List String) (bad : String), mockRoleIds (jsToLower bad) = none →
      (assignRolesToUser (some token) (some su) st userId (pre ++ bad :: post) resp).ok =
        (assignRolesToUser (some token) (some su) st userId (pre ++ post) resp).ok := by
  refine ⟨?_, ?_, ?_⟩
  · cases resp with
    | error msg => simp [assignRolesToUser, hadm, roleUuidsFor]
    | ok r =>
      obtain ⟨succ, val, em⟩ := r
      cases val <;> cases succ <;> simp [assignRolesToUser, hadm, roleUuidsFor]
  · intro pre post bad hbad
    simp [roleUuidsFor, List.filterMap_append, List.filterMap_cons, hbad]
  · intro pre post bad hbad
    cases resp with
    | error msg => simp [assignRolesToUser, hadm]
    | ok r =>
      obtain ⟨succ, val, em⟩ := r
      cases val <;> cases succ <;> simp [assignRolesToUser, hadm]

/-- C8 witness: "Administrador" (uppercase) maps through the table, an unknown
name is silently dropped. -/
theorem assignRoles_request_spec_witness :
    (assignRolesToUser (some "tok") (some uAdmin) { users := [], errorUsers := none }
        "u9" ["Administrador", "gerente"] (.error "net")).request =
      some ("u9", ["74eddc48-9a0d-418f-b074-c3867db03b31"]) :=
  ((assignRoles_request_spec "tok" uAdmin { users := [], errorUsers := none }
    "u9" ["Administrador", "gerente"] (.error "net") (by decide)).1).trans (by decide)

lemma map_preserving_getElem (tasks : List Task) (f : Task → Task) (i : Nat)
    (t : Task) (hget : tasks[i]? = some t) (hf : f t = t) :
    (tasks.map f)[i]? = some t := by
  simp [List.getElem?_map, hget, hf]

/-- C7: a successful update/setStatus/assignEmployee/assignSupervisor leaves
every task with a different id unchanged (same position) and triggers no
refetch, while a successful remove triggers a refetch. -/
theorem task_mutations_frame (token : String) (tasks : List Task)
    (err : Option String) (id : String) (respT : Task) (i : Nat) (t : Task)
    (hget : tasks[i]? = some t) (hne : t.id ≠ id) :
    ((updateTask (some token) tasks err id (.ok respT)).tasks[i]? = some t ∧
      (updateTask (some token) tasks err id (.ok respT)).refetch = false ∧
      (updateTask (some token) tasks err id (.ok respT)).ok = true) ∧
    ((updateTaskStatus (some token) tasks err id (.ok respT)).tasks[i]? = some t ∧
      (updateTaskStatus (some token) tasks err id (.ok respT)).refetch = false ∧
      (updateTaskStatus (some token) tasks err id (.ok respT)).ok = true) ∧
    ((assignTaskToEmployee (some token) tasks err id (.ok respT)).tasks[i]? = some t ∧
      (assignTaskToEmployee (some token) tasks err id (.ok respT)).refetch = false ∧
      (assignTaskToEmployee (some token) tasks err id (.ok respT)).ok = true) ∧
    ((assignTaskToSupervisor (some token) tasks err id (.ok respT)).tasks[i]? = some t ∧
      (assignTaskToSupervisor (some token) tasks err id (.ok respT)).refetch = false ∧
      (assignTaskToSupervisor (some token) tasks err id (.ok respT)).ok = true) ∧
    ((deleteTask (some token) tasks err id (.ok ())).tasks = tasks ∧
      (deleteTask (some token) tasks err id (.ok ())).refetch = true) := by
  have hfalse : (t.id == id) = false := by simp [hne]
  refine ⟨⟨?_, rfl, rfl⟩, ⟨?_, rfl, rfl⟩, ⟨?_, rfl, rfl⟩, ⟨?_, rfl, rfl⟩, rfl, rfl⟩ <;>
    simp [updateTask, updateTaskStatus, assignTaskToEmployee, assignTaskToSupervisor,
      List.getElem?_map, hget, hfalse] <;>
    exact fun h => absurd h hne

/-- C7 witness: updating task "t2" leaves the task at position 0 ("t1") exactly
as it was. -/
theorem task_mutations_frame_witness :
    (updateTask (some "tok") [tOwn, tForeign] none "t2" (.ok tForeign)).tasks[0]? =
      some tOwn :=
  (task_mutations_frame "tok" [tOwn, tForeign] none "t2" tForeign 0 tOwn rfl
    (by decide)).1.1

/-- C10: roles stored by the directory store and the login identity are always
the projection of the raw response roles: names are extracted, falsy (null)
names dropped, a missing roles array becomes the empty list. -/
theorem roles_normalized :
    projectRoles none = [] ∧
    (∀ (rs : List RawRole) (x : String),
      x ∈ projectRoles (some rs) → ∃ r, r ∈ rs ∧ r.name = some x) ∧
    (∀ ru : RawUser, (normalizeUser ru).roles = projectRoles ru.roles) ∧
    (∀ (token : String) (su : Option User) (st : UMState) (raws : List RawUser)
      (em : Option String), hasRole su ["administrador"] = true →
      (fetchUsers (some token) su st
        (.ok { isSuccess := true, value := some raws, errorMessage := em })).1.users =
        raws.map normalizeUser) ∧
    (∀ (token : String) (su : Option User) (st : UMState) (id : String) (ru : RawUser),
      hasRole su ["administrador"] = true →
      ∀ u' ∈ (updateUser (some token) su st id (.ok ru)).1.users,
        u' ∈ st.users ∨ u' = normalizeUser ru) ∧
    (∀ (token : String) (su : User) (st : UMState) (userId : String)
      (roles : List String) (resp : ApiResponse RawUser) (raw : RawUser),
      hasRole (some su) ["administrador"] = true → resp.isSuccess = true →
      resp.value = some raw →
      (∀ u' ∈ (assignRolesToUser (some token) (some su) st userId roles
          (.ok resp)).state.users,
        u' ∈ st.users ∨ u'.roles = projectRoles raw.roles) ∧
      ∀ su', (assignRolesToUser (some token) (some su) st userId roles
          (.ok resp)).sessionUser = some su' →
        su' = su ∨ su'.roles = projectRoles raw.roles) ∧
    ∀ (s : AuthState) (userData : RawUser) (jwt : String),
      (setUserAndToken s userData jwt).user = some (normalizeUser userData) := by
  refine ⟨rfl, ?_, fun ru => rfl, ?_, ?_, ?_, fun s userData jwt => rfl⟩
  · intro rs x hx
    rw [projectRoles, List.mem_filterMap] at hx
    obtain ⟨r, hr, hf⟩ := hx
    refine ⟨r, hr, ?_⟩
    rcases hn : r.name with _ | s
    · simp [truthyName, hn] at hf
    · simp only [truthyName, hn] at hf
      by_cases hs : s = ""
      · simp [hs] at hf
      · simp only [if_neg hs, Option.some_inj] at hf
        rw [hf]
  · intro token su st raws em hadm
    simp [fetchUsers, hadm]
  · intro token su st id ru hadm u' hu'
    simp only [updateUser, hadm, Option.isNone_some, Bool.not_true, Bool.false_or,
      Bool.or_false, Bool.false_eq_true, if_false] at hu'
    rw [List.mem_map] at hu'
    obtain ⟨u, hu, hfu⟩ := hu'
    by_cases hid : (u.id == id) = true
    · right; rw [← hfu]; simp [hid]
    · left; rw [← hfu]; simp [Bool.eq_false_iff.mpr hid]; exact hu
  · intro token su st userId roles resp raw hadm hsucc hval
    constructor
    · intro u' hu'
      simp only [assignRolesToUser, hadm, hval, hsucc, Option.isNone_some,
        Bool.not_true, Bool.or_false, Bool.false_eq_true, if_false] at hu'
      rw [List.mem_map] at hu'
      obtain ⟨u, hu, hfu⟩ := hu'
      by_cases hid : (u.id == userId) = true
      · right; rw [← hfu]; simp [hid]
      · left; rw [← hfu]; simp [Bool.eq_false_iff.mpr hid]; exact hu
    · intro su' hsu'
      simp only [assignRolesToUser, hadm, hval, hsucc, Option.isNone_some,
        Bool.not_true, Bool.or_false, Bool.false_eq_true, if_false] at hsu'
      by_cases hid : (su.id == userId) = true
      · right; rw [if_pos hid] at hsu'
        rw [← Option.some_inj.mp hsu']
      · left
        rw [if_neg hid] at hsu'
        exact (Option.some_inj.mp hsu').symm

end TodoWebapp
